import Mathlib

/-!
Shallow embedding of the formulas presented in
`src/Normalization_Techniques/Normalization.ipynb`.

The notebook is pure documentation: its only content is markdown cells
stating the formulas for min-max scaling, z-score normalization, batch
normalization and layer normalization, plus one empty code cell.  We embed
each formula as a Lean function over the reals and the notebook's cell
structure as a concrete list, and prove the documented properties.
-/

noncomputable section

namespace Normalization

/-- Min-Max Scaling formula from the notebook:
`X' = (X - X_min) / (X_max - X_min)`. -/
def minMaxScale (xmin xmax x : ℝ) : ℝ :=
  (x - xmin) / (xmax - xmin)

/-- Min-Max Scaling as a guarded (fallible) computation: the formula's
division has no value when the denominator `X_max - X_min` is zero. -/
def minMaxScaleOpt (xmin xmax x : ℝ) : Option ℝ :=
  if xmax - xmin = 0 then none else some ((x - xmin) / (xmax - xmin))

/-- Sample mean `mu = (sum of the sample) / n`. -/
def mean (xs : List ℝ) : ℝ :=
  xs.sum / xs.length

/-- Sample variance `sigma^2 = (sum of squared deviations from the mean) / n`. -/
def variance (xs : List ℝ) : ℝ :=
  ((xs.map fun x => (x - mean xs) ^ 2).sum) / xs.length

/-- Sample standard deviation `sigma = sqrt(sigma^2)`. -/
def std (xs : List ℝ) : ℝ :=
  Real.sqrt (variance xs)

/-- Z-Score Normalization formula from the notebook:
`X' = (X - mu) / sigma`, applied to every element of the sample. -/
def zscore (xs : List ℝ) : List ℝ :=
  xs.map fun x => (x - mean xs) / std xs

/-- The common denominator `sqrt(sigma^2 + epsilon)` of the batch- and
layer-normalization formulas. -/
def normDenom (xs : List ℝ) (ε : ℝ) : ℝ :=
  Real.sqrt (variance xs + ε)

/-- Batch Normalization formula from the notebook:
`x_hat = (x - mu_B) / sqrt(sigma_B^2 + epsilon)`, applied over a mini-batch. -/
def batchNorm (xs : List ℝ) (ε : ℝ) : List ℝ :=
  xs.map fun x => (x - mean xs) / normDenom xs ε

/-- Batch Normalization with the learnable scale and shift:
`y = gamma * x_hat + beta`. -/
def batchNormOut (xs : List ℝ) (ε γ β : ℝ) : List ℝ :=
  xs.map fun x => γ * ((x - mean xs) / normDenom xs ε) + β

/-- Layer Normalization formula from the notebook, applied to a single
example `x` across its features: `y = gamma * (x - mu)/sqrt(sigma^2 + eps) + beta`,
where `mu` and `sigma^2` are computed over the features of `x` alone. -/
def layerNorm (x : List ℝ) (ε γ β : ℝ) : List ℝ :=
  x.map fun xi => γ * ((xi - mean x) / normDenom x ε) + β

/-- Layer normalization of a whole batch: each example is normalized
independently. -/
def layerNormBatch (B : List (List ℝ)) (ε γ β : ℝ) : List (List ℝ) :=
  B.map fun x => layerNorm x ε γ β

end Normalization

namespace Normalization

/-- Helper: sum of an affine image of a list. -/
lemma sum_map_affine (a b : ℝ) (xs : List ℝ) :
    (xs.map fun x => a * x + b).sum = a * xs.sum + b * xs.length := by
  induction xs with
  | nil => simp
  | cons h t ih =>
    simp only [List.map_cons, List.sum_cons, ih, List.length_cons]
    push_cast
    ring

/-- Helper: the length of a list is a nonzero real when the list is nonempty. -/
lemma length_ne_zero {xs : List ℝ} (h : xs ≠ []) : (xs.length : ℝ) ≠ 0 := by
  exact_mod_cast fun hz => h (List.length_eq_zero.mp hz)

/-- Helper: mean of an affine image. -/
lemma mean_map_affine (a b : ℝ) {xs : List ℝ} (h : xs ≠ []) :
    mean (xs.map fun x => a * x + b) = a * mean xs + b := by
  have hn := length_ne_zero h
  simp only [mean, List.length_map, sum_map_affine]
  field_simp

/-- Helper: variance of an affine image. -/
lemma variance_map_affine (a b : ℝ) {xs : List ℝ} (h : xs ≠ []) :
    variance (xs.map fun x => a * x + b) = a ^ 2 * variance xs := by
  have hn := length_ne_zero h
  simp only [variance, mean_map_affine a b h, List.length_map, List.map_map]
  have hfun : ((fun y => (y - (a * mean xs + b)) ^ 2) ∘ fun x => a * x + b)
      = fun x => a ^ 2 * (x - mean xs) ^ 2 := by
    funext x
    simp only [Function.comp]
    ring
  rw [hfun, List.sum_map_mul_left, mul_div_assoc]

/-- Helper: the variance of a sample is nonnegative. -/
lemma variance_nonneg (xs : List ℝ) : 0 ≤ variance xs := by
  apply div_nonneg
  · apply List.sum_nonneg
    intro x hx
    obtain ⟨y, _, rfl⟩ := List.mem_map.mp hx
    positivity
  · positivity

/-- Helper: centering a sample at its mean and dividing by any constant
yields a sample of mean zero. -/
lemma mean_center_div {xs : List ℝ} (h : xs ≠ []) (c : ℝ) :
    mean (xs.map fun x => (x - mean xs) / c) = 0 := by
  have hfun : (fun x => (x - mean xs) / c)
      = fun x => (1 / c) * x + (-(mean xs / c)) := by
    funext x
    ring
  rw [hfun, mean_map_affine _ _ h]
  ring

/-- Helper: centering a sample at its mean and dividing by a constant `c`
divides its variance by `c ^ 2`. -/
lemma variance_center_div {xs : List ℝ} (h : xs ≠ []) (c : ℝ) :
    variance (xs.map fun x => (x - mean xs) / c) = variance xs / c ^ 2 := by
  have hfun : (fun x => (x - mean xs) / c)
      = fun x => (1 / c) * x + (-(mean xs / c)) := by
    funext x
    ring
  rw [hfun, variance_map_affine _ _ h]
  ring

/-- Helper: a nonzero standard deviation forces a positive variance. -/
lemma variance_pos_of_std_ne_zero {xs : List ℝ} (h : std xs ≠ 0) :
    0 < variance xs := by
  rcases lt_or_eq_of_le (variance_nonneg xs) with hv | hv
  · exact hv
  · exact absurd (by rw [std, ← hv, Real.sqrt_zero]) h

/-- Helper: the square of the batch-normalization denominator recovers
`sigma^2 + epsilon`. -/
lemma normDenom_sq (xs : List ℝ) {ε : ℝ} (hε : 0 ≤ ε) :
    normDenom xs ε ^ 2 = variance xs + ε :=
  Real.sq_sqrt (by linarith [variance_nonneg xs])

/-- Helper: the variance of a batch-normalized mini-batch is
`sigma_B^2 / (sigma_B^2 + epsilon)`. -/
lemma variance_batchNorm {xs : List ℝ} (h : xs ≠ []) {ε : ℝ} (hε : 0 < ε) :
    variance (batchNorm xs ε) = variance xs / (variance xs + ε) := by
  rw [batchNorm, variance_center_div h, normDenom_sq xs hε.le]

/-- Helper: the normalization denominator is positive for positive `epsilon`. -/
lemma normDenom_pos_aux (xs : List ℝ) (ε : ℝ) (hε : 0 < ε) :
    0 < normDenom xs ε :=
  Real.sqrt_pos.mpr (by linarith [variance_nonneg xs])

/-- Helper: `variance [0, 1] = 1/4`, a concrete evaluation used in witnesses. -/
lemma variance_zero_one : variance [(0:ℝ), 1] = 1 / 4 := by
  norm_num [variance, mean]

/-- The two kinds of cells appearing in the notebook. -/
inductive CellType
  | markdown
  | code
deriving DecidableEq

/-- A notebook cell: its kind and the number of lines in its `source` array. -/
structure NotebookCell where
  cellType : CellType
  sourceLines : ℕ
deriving DecidableEq

/-- The cell list of `src/Normalization_Techniques/Normalization.ipynb`:
four markdown cells (of 32, 58, 57 and 12 source lines) followed by a single
code cell whose source is empty. -/
def notebookCells : List NotebookCell :=
  [⟨CellType.markdown, 32⟩, ⟨CellType.markdown, 58⟩, ⟨CellType.markdown, 57⟩,
   ⟨CellType.markdown, 12⟩, ⟨CellType.code, 0⟩]

end Normalization

open Normalization

/-- C1: with `X_min < X_max`, the min-max formula maps `X_min` to `0`,
`X_max` to `1`, and every in-range input `X` (with `X_min ≤ X ≤ X_max`)
into the interval `[0, 1]`. -/
theorem minMaxScale_mem_unitInterval (xmin xmax x : ℝ)
    (hlt : xmin < xmax) (hlo : xmin ≤ x) (hhi : x ≤ xmax) :
    minMaxScale xmin xmax xmin = 0 ∧ minMaxScale xmin xmax xmax = 1 ∧
    0 ≤ minMaxScale xmin xmax x ∧ minMaxScale xmin xmax x ≤ 1 := by
  have hd : 0 < xmax - xmin := sub_pos.mpr hlt
  refine ⟨?_, ?_, ?_, ?_⟩
  · simp [minMaxScale]
  · simp [minMaxScale, div_self hd.ne']
  · exact div_nonneg (sub_nonneg.mpr hlo) hd.le
  · rw [minMaxScale, div_le_one hd]
    linarith

/-- Witness for C1 at `xmin = 0`, `xmax = 4`, `x = 1`. -/
theorem minMaxScale_mem_unitInterval_witness :
    minMaxScale 0 4 0 = 0 ∧ minMaxScale 0 4 4 = 1 ∧
    0 ≤ minMaxScale 0 4 1 ∧ minMaxScale 0 4 1 ≤ 1 :=
  minMaxScale_mem_unitInterval 0 4 1 (by norm_num) (by norm_num) (by norm_num)

/-- C6: with `X_min < X_max`, min-max scaling is an affine map with positive
slope, and it is order preserving on in-range inputs: `X ≤ Y` gives
`X' ≤ Y'` and `X < Y` gives `X' < Y'`. -/
theorem minMaxScale_affine_strictMono (xmin xmax : ℝ) (hlt : xmin < xmax) :
    (∃ a b : ℝ, 0 < a ∧ ∀ x, minMaxScale xmin xmax x = a * x + b) ∧
    (∀ x y, xmin ≤ x → x ≤ xmax → xmin ≤ y → y ≤ xmax → x ≤ y →
      minMaxScale xmin xmax x ≤ minMaxScale xmin xmax y) ∧
    (∀ x y, xmin ≤ x → x ≤ xmax → xmin ≤ y → y ≤ xmax → x < y →
      minMaxScale xmin xmax x < minMaxScale xmin xmax y) := by
  have hd : 0 < xmax - xmin := sub_pos.mpr hlt
  refine ⟨⟨1 / (xmax - xmin), -xmin / (xmax - xmin), by positivity, ?_⟩, ?_, ?_⟩
  · intro x
    rw [minMaxScale]
    field_simp
    ring
  · intro x y _ _ _ _ hxy
    exact (div_le_div_iff_of_pos_right hd).mpr (by linarith)
  · intro x y _ _ _ _ hxy
    exact (div_lt_div_iff_of_pos_right hd).mpr (by linarith)

/-- Witness for C6 at `xmin = 0`, `xmax = 2`. -/
theorem minMaxScale_affine_strictMono_witness :
    (∃ a b : ℝ, 0 < a ∧ ∀ x, minMaxScale 0 2 x = a * x + b) ∧
    (∀ x y, (0:ℝ) ≤ x → x ≤ 2 → (0:ℝ) ≤ y → y ≤ 2 → x ≤ y →
      minMaxScale 0 2 x ≤ minMaxScale 0 2 y) ∧
    (∀ x y, (0:ℝ) ≤ x → x ≤ 2 → (0:ℝ) ≤ y → y ≤ 2 → x < y →
      minMaxScale 0 2 x < minMaxScale 0 2 y) :=
  minMaxScale_affine_strictMono 0 2 (by norm_num)

/-- C8: the guarded min-max computation has no value on a constant sample
(`X_max = X_min`), and on every sample with `X_max ≠ X_min` the
division-by-zero branch is unreachable and the formula's value is produced. -/
theorem minMaxScaleOpt_partiality (xmin xmax x : ℝ) :
    (xmax = xmin → minMaxScaleOpt xmin xmax x = none) ∧
    (xmax ≠ xmin → minMaxScaleOpt xmin xmax x = some (minMaxScale xmin xmax x)) := by
  constructor
  · intro h
    simp [minMaxScaleOpt, h]
  · intro h
    rw [minMaxScaleOpt, if_neg (sub_ne_zero.mpr h)]
    rfl

/-- Witness for C8 at concrete inputs. -/
theorem minMaxScaleOpt_partiality_witness :
    minMaxScaleOpt 1 1 5 = none ∧ minMaxScaleOpt 0 2 1 = some (minMaxScale 0 2 1) :=
  ⟨(minMaxScaleOpt_partiality 1 1 5).1 rfl,
   (minMaxScaleOpt_partiality 0 2 1).2 (by norm_num)⟩

/-- C2: for a non-empty sample with nonzero standard deviation, the
z-score-normalized sample has mean exactly `0` and standard deviation
exactly `1`. -/
theorem zscore_mean_zero_std_one (xs : List ℝ) (hne : xs ≠ []) (hσ : std xs ≠ 0) :
    mean (zscore xs) = 0 ∧ std (zscore xs) = 1 := by
  have hv : 0 < variance xs := variance_pos_of_std_ne_zero hσ
  constructor
  · rw [zscore, mean_center_div hne]
  · rw [std, zscore, variance_center_div hne, std, Real.sq_sqrt hv.le,
      div_self hv.ne', Real.sqrt_one]

/-- Witness for C2 at the sample `[0, 2]`. -/
theorem zscore_mean_zero_std_one_witness :
    mean (zscore [(0:ℝ), 2]) = 0 ∧ std (zscore [(0:ℝ), 2]) = 1 := by
  have hv : variance [(0:ℝ), 2] = 1 := by
    norm_num [variance, mean]
  exact zscore_mean_zero_std_one [(0:ℝ), 2] (by simp)
    (by rw [std, hv, Real.sqrt_one]; norm_num)

/-- C3: for a non-empty mini-batch and any `epsilon > 0`, the
batch-normalized values have mean exactly `0` over the mini-batch. -/
theorem batchNorm_mean_zero (xs : List ℝ) (ε : ℝ) (hne : xs ≠ []) (hε : 0 < ε) :
    mean (batchNorm xs ε) = 0 := by
  rw [batchNorm, mean_center_div hne]

/-- Witness for C3 at the mini-batch `[0, 2]` with `epsilon = 1`. -/
theorem batchNorm_mean_zero_witness :
    mean (batchNorm [(0:ℝ), 2] 1) = 0 :=
  batchNorm_mean_zero [(0:ℝ), 2] 1 (by simp) (by norm_num)

/-- Counterexample to C4: on the mini-batch `[0, 1]` with `epsilon = 1`,
the batch-normalized values have variance `1/5`, not `1`. -/
theorem batchNorm_variance_ne_one_counterexample :
    variance (batchNorm [(0:ℝ), 1] 1) ≠ 1 := by
  rw [variance_batchNorm (by simp) one_pos, variance_zero_one]
  norm_num

/-- C4 (amended): for a non-empty mini-batch and any `epsilon > 0`, the
batch-normalized values have variance exactly
`sigma_B^2 / (sigma_B^2 + epsilon)` over the mini-batch, which is strictly
less than `1`; the variance is `1` only in the limit `epsilon -> 0`. -/
theorem batchNorm_variance_amended (xs : List ℝ) (ε : ℝ) (hne : xs ≠ []) (hε : 0 < ε) :
    variance (batchNorm xs ε) = variance xs / (variance xs + ε) ∧
    variance (batchNorm xs ε) < 1 := by
  have hv := variance_nonneg xs
  refine ⟨variance_batchNorm hne hε, ?_⟩
  rw [variance_batchNorm hne hε]
  rw [div_lt_one (by linarith)]
  linarith

/-- Witness for C4 (amended) at the mini-batch `[0, 1]` with `epsilon = 1`. -/
theorem batchNorm_variance_amended_witness :
    variance (batchNorm [(0:ℝ), 1] 1) =
      variance [(0:ℝ), 1] / (variance [(0:ℝ), 1] + 1) ∧
    variance (batchNorm [(0:ℝ), 1] 1) < 1 :=
  batchNorm_variance_amended [(0:ℝ), 1] 1 (by simp) one_pos

/-- C5: layer normalization is independent of the batch: if two batches hold
the same example (at positions `i` and `j`), layer-normalizing each batch
gives that example the same output, namely the layer normalization of the
example itself. -/
theorem layerNorm_batch_independent (ε γ β : ℝ) (B₁ B₂ : List (List ℝ))
    (i j : ℕ) (hi : i < B₁.length) (hj : j < B₂.length)
    (hx : B₁.get ⟨i, hi⟩ = B₂.get ⟨j, hj⟩) :
    (layerNormBatch B₁ ε γ β).get ⟨i, by simpa [layerNormBatch] using hi⟩ =
      layerNorm (B₁.get ⟨i, hi⟩) ε γ β ∧
    (layerNormBatch B₂ ε γ β).get ⟨j, by simpa [layerNormBatch] using hj⟩ =
      layerNorm (B₁.get ⟨i, hi⟩) ε γ β ∧
    (layerNormBatch B₁ ε γ β).get ⟨i, by simpa [layerNormBatch] using hi⟩ =
      (layerNormBatch B₂ ε γ β).get ⟨j, by simpa [layerNormBatch] using hj⟩ := by
  simp only [layerNormBatch, List.get_eq_getElem, List.getElem_map] at *
  simp [hx]

/-- Witness for C5: the example `[1, 2]` gets the same output in the
batches `[[1, 2]]` and `[[0], [1, 2]]`. -/
theorem layerNorm_batch_independent_witness :
    (layerNormBatch [[(1:ℝ), 2]] 1 1 0).get ⟨0, by simp [layerNormBatch]⟩ =
      layerNorm [(1:ℝ), 2] 1 1 0 ∧
    (layerNormBatch [[(0:ℝ)], [1, 2]] 1 1 0).get ⟨1, by simp [layerNormBatch]⟩ =
      layerNorm [(1:ℝ), 2] 1 1 0 ∧
    (layerNormBatch [[(1:ℝ), 2]] 1 1 0).get ⟨0, by simp [layerNormBatch]⟩ =
      (layerNormBatch [[(0:ℝ)], [1, 2]] 1 1 0).get ⟨1, by simp [layerNormBatch]⟩ :=
  layerNorm_batch_independent 1 1 0 [[(1:ℝ), 2]] [[(0:ℝ)], [1, 2]] 0 1
    (by simp) (by simp) rfl

/-- C9: for any sample and any `epsilon > 0`, the denominator
`sqrt(sigma^2 + epsilon)` shared by the batch- and layer-normalization
formulas is strictly positive (hence nonzero), even when the variance is
zero. -/
theorem normDenom_pos (xs : List ℝ) (ε : ℝ) (hε : 0 < ε) :
    0 < normDenom xs ε ∧ normDenom xs ε ≠ 0 := by
  have h : 0 < normDenom xs ε := normDenom_pos_aux xs ε hε
  exact ⟨h, h.ne'⟩

/-- Witness for C9 at the constant sample `[5, 5]` (variance zero) with
`epsilon = 1`. -/
theorem normDenom_pos_witness :
    0 < normDenom [(5:ℝ), 5] 1 ∧ normDenom [(5:ℝ), 5] 1 ≠ 0 :=
  normDenom_pos [(5:ℝ), 5] 1 one_pos

/-- C10: choosing `gamma = sqrt(sigma_B^2 + epsilon)` and `beta = mu_B`
makes batch normalization with scale and shift return the mini-batch
unchanged. -/
theorem batchNormOut_inverts (xs : List ℝ) (ε : ℝ) (hε : 0 < ε) :
    batchNormOut xs ε (normDenom xs ε) (mean xs) = xs := by
  have hd : normDenom xs ε ≠ 0 := (normDenom_pos_aux xs ε hε).ne'
  rw [batchNormOut]
  have hfun : (fun x => normDenom xs ε * ((x - mean xs) / normDenom xs ε) + mean xs)
      = id := by
    funext x
    field_simp
  rw [hfun, List.map_id]

/-- Witness for C10 at the mini-batch `[0, 2]` with `epsilon = 1`. -/
theorem batchNormOut_inverts_witness :
    batchNormOut [(0:ℝ), 2] 1 (normDenom [(0:ℝ), 2] 1) (mean [(0:ℝ), 2]) =
      [(0:ℝ), 2] :=
  batchNormOut_inverts [(0:ℝ), 2] 1 one_pos

/-- C7: every non-empty cell of the notebook is a markdown cell, there is
exactly one code cell, and that code cell has an empty source. -/
theorem notebook_no_executable_logic :
    (∀ c ∈ notebookCells, c.sourceLines ≠ 0 → c.cellType = CellType.markdown) ∧
    (notebookCells.filter fun c => decide (c.cellType = CellType.code)).length = 1 ∧
    (∀ c ∈ notebookCells, c.cellType = CellType.code → c.sourceLines = 0) := by
  decide

end
